import Mathlib

/-!
# Verification of `git-status-color`

A shallow embedding of `src/git-status-color.c`: the program reads one line
(the commit SHA) from a subprocess, decodes the first six lowercase-hex
characters into an RGB colour, classifies the colour as LIGHT or DARK by a
luminance heuristic, and prints a 24-bit ANSI escape sequence.

Modelling conventions:
* C strings / the stdio stream are `List Char`; the global `buffer` (42 bytes,
  zero-initialised, written once) is the line read by `fgets` followed by the
  NUL terminator and the untouched zero bytes.
* `errno` is threaded explicitly as a `Nat` (0 = no error, `EINVAL` = 22);
  the C code never clears it, only `parse_hex_ascii_byte` may set it.
* Machine integers are `Nat` with explicit `% 256` where `uint8_t` truncates;
  all `int` values arising here are non-negative, so C truncating division
  coincides with `Nat` division.
* The pair returned by `runMain` is (bytes written to stdout, exit status);
  `EXIT_SUCCESS = 0`, `EXIT_FAILURE = 1`.
-/

/-- `SHA1_HEX_LENGTH = 40` from the source's anonymous enum. -/
def SHA1_HEX_LENGTH : Nat := 40

/-- `EXPECTED_OUTPUT_LENGTH = SHA1_HEX_LENGTH + sizeof("\n") = 42`. -/
def EXPECTED_OUTPUT_LENGTH : Nat := SHA1_HEX_LENGTH + 2

/-- The POSIX `EINVAL` error code set by `parse_hex_ascii_byte` on failure. -/
def EINVAL : Nat := 22

/-- `enum perceived_brightness_t { LIGHT, DARK }`. -/
inductive perceived_brightness_t
  | LIGHT
  | DARK
  deriving DecidableEq, Repr

/-- `CSI`: the Control Sequence Introducer, `"\033["`. -/
def CSI : String := "\x1b["

/-- `SGR`: "select graphics rendition", `"m"`. -/
def SGR : String := "m"

/-- `SET_WHITE_FOREGROUND`, `"37"`. -/
def SET_WHITE_FOREGROUND : String := "37"

/-- `parse_hex_ascii_byte` from the source, with `errno` made explicit: the
returned pair is (the `uint8_t` result, the value of `errno` after the call).
`c & 0x0F` on the ASCII code is `c.toNat &&& 0x0F`; on a character outside
`0`-`9` and `a`-`f` the function stores `EINVAL` in `errno` and returns `0xFF`,
otherwise `errno` is left untouched. -/
def parse_hex_ascii_byte (c : Char) (errno : Nat) : Nat × Nat :=
  if '0' ≤ c ∧ c ≤ '9' then (c.toNat &&& 0x0F, errno)
  else if 'a' ≤ c ∧ c ≤ 'f' then (9 + (c.toNat &&& 0x0F), errno)
  else (0xFF, EINVAL)

/-- `parse_hex_octet` from the source: the argument list is the tail of the
buffer starting at the octet (`start[0]`, `start[1]` become `getD 0` /
`getD 1`); `(upper << 4) | lower` is computed in `int` and truncated to
`uint8_t` by the return type, hence the `% 256`. -/
def parse_hex_octet (s : List Char) (errno : Nat) : Nat × Nat :=
  let u := parse_hex_ascii_byte (s.getD 0 (Char.ofNat 0)) errno
  let l := parse_hex_ascii_byte (s.getD 1 (Char.ofNat 0)) u.2
  (((u.1 <<< 4) ||| l.1) % 256, l.2)

/-- The luminance expression inside `light_or_dark`:
`(299 * r + 587 * g + 114 * b) / 1000` in truncating `int` arithmetic, which
on the non-negative channel values is `Nat` division. -/
def luminance (r g b : Nat) : Nat := (299 * r + 587 * g + 114 * b) / 1000

/-- `light_or_dark` from the source: LIGHT when the luminance exceeds
`0xFF / 2`. (The `assert(luminance >= 0 && luminance <= 255)` in the body is
proved below as the range claim.) -/
def light_or_dark (r g b : Nat) : perceived_brightness_t :=
  if luminance r g b > 0xFF / 2 then .LIGHT else .DARK

/-- One `fgets(buffer, n, stream)` read: at most `n` characters are consumed,
and reading stops with the newline included. -/
def readLine : Nat → List Char → List Char
  | 0, _ => []
  | _, [] => []
  | k + 1, c :: cs => if c = '\n' then [c] else c :: readLine k cs

/-- The `fgets(buffer, EXPECTED_OUTPUT_LENGTH, command)` call in `main`:
it reads at most `EXPECTED_OUTPUT_LENGTH - 1 = 41` characters and returns
NULL (`none`) exactly when the stream is at end-of-file before any character
is read. -/
def fgetsModel (stream : List Char) : Option (List Char) :=
  if stream.isEmpty then none
  else some (readLine (EXPECTED_OUTPUT_LENGTH - 1) stream)

/-- The global `buffer` after `fgets` returned `line`: the characters read,
the NUL terminator written by `fgets`, then the zero-initialised remainder of
the 42-byte array. -/
def bufferAfter (line : List Char) : List Char :=
  line ++ List.replicate (EXPECTED_OUTPUT_LENGTH - line.length) (Char.ofNat 0)

/-- `strnlen(s, maxlen)`: the index of the first NUL byte, capped at
`maxlen`. -/
def strnlen (s : List Char) (maxlen : Nat) : Nat :=
  match s, maxlen with
  | [], _ => 0
  | _, 0 => 0
  | c :: cs, k + 1 => if c = Char.ofNat 0 then 0 else 1 + strnlen cs k

/-- The body of `main`. `stream = none` models `popen` failing; otherwise the
stream holds everything `git rev-parse HEAD` writes to its stdout. `errno0`
is the value of `errno` when parsing begins (the code never resets it).
The result is (bytes printed to stdout, exit status); every `goto cleanup`
before the `printf` yields `("", 1)`. -/
def runMain (stream : Option (List Char)) (errno0 : Nat) : String × Nat :=
  match stream with
  | none => ("", 1)
  | some s =>
    match fgetsModel s with
    | none => ("", 1)
    | some line =>
      let buffer := bufferAfter line
      if strnlen buffer EXPECTED_OUTPUT_LENGTH < SHA1_HEX_LENGTH then ("", 1)
      else
        let pr := parse_hex_octet buffer errno0
        let pg := parse_hex_octet (buffer.drop 2) pr.2
        let pb := parse_hex_octet (buffer.drop 4) pg.2
        if pb.2 ≠ 0 then ("", 1)
        else
          let r := pr.1
          let g := pg.1
          let b := pb.1
          let mode := if light_or_dark r g b = .LIGHT then 38 else 48
          (CSI ++ toString mode ++ ";2;" ++ toString r ++ ";" ++ toString g
              ++ ";" ++ toString b ++ SGR
              ++ (if mode = 48 then CSI ++ SET_WHITE_FOREGROUND ++ SGR else ""),
            0)

/-- A character the decoder accepts: `0`-`9` or lowercase `a`-`f`. -/
def isLowerHexDigit (c : Char) : Prop :=
  ('0' ≤ c ∧ c ≤ '9') ∨ ('a' ≤ c ∧ c ≤ 'f')

instance (c : Char) : Decidable (isLowerHexDigit c) := by
  unfold isLowerHexDigit; infer_instance

/-- The numeric value of a lowercase hex digit, written after the spec's
"big-endian interpretation of each hex pair" (0 on non-digits). -/
def hexDigitValue (c : Char) : Nat :=
  if '0' ≤ c ∧ c ≤ '9' then c.toNat - 48
  else if 'a' ≤ c ∧ c ≤ 'f' then c.toNat - 97 + 10
  else 0

/-- The decoded colour channels of a line: the values `main` stores in
`r`, `g`, `b` (the value component of `parse_hex_octet` does not depend on
`errno`, so it is fixed to 0 here). -/
def decodeRGB (line : List Char) : Nat × Nat × Nat :=
  ((parse_hex_octet (bufferAfter line) 0).1,
   (parse_hex_octet ((bufferAfter line).drop 2) 0).1,
   (parse_hex_octet ((bufferAfter line).drop 4) 0).1)

theorem char_le_iff_toNat {a b : Char} : a ≤ b ↔ a.toNat ≤ b.toNat := by
  simp [Char.le_def, UInt32.le_def, BitVec.le_def, Char.toNat, UInt32.toNat]

theorem toNat_ascii_zero : ('0' : Char).toNat = 48 := rfl

theorem toNat_ascii_nine : ('9' : Char).toNat = 57 := rfl

theorem toNat_ascii_a : ('a' : Char).toNat = 97 := rfl

theorem toNat_ascii_f : ('f' : Char).toNat = 102 := rfl

theorem and_fifteen_digit (n : Nat) (h1 : 48 ≤ n) (h2 : n ≤ 57) : n &&& 15 = n - 48 := by
  interval_cases n <;> rfl

theorem and_fifteen_alpha (n : Nat) (h1 : 97 ≤ n) (h2 : n ≤ 102) :
    9 + (n &&& 15) = n - 97 + 10 := by
  interval_cases n <;> rfl

theorem combine_nibbles : ∀ u < 16, ∀ l < 16, ((u <<< 4) ||| l) % 256 = 16 * u + l := by
  decide

theorem parse_hex_ascii_byte_digit {c : Char} (e : Nat) (h : '0' ≤ c ∧ c ≤ '9') :
    parse_hex_ascii_byte c e = (hexDigitValue c, e) := by
  have h1 : 48 ≤ c.toNat := by
    have := char_le_iff_toNat.mp h.1; rwa [toNat_ascii_zero] at this
  have h2 : c.toNat ≤ 57 := by
    have := char_le_iff_toNat.mp h.2; rwa [toNat_ascii_nine] at this
  rw [parse_hex_ascii_byte, hexDigitValue, if_pos h, if_pos h,
    and_fifteen_digit c.toNat h1 h2]

theorem parse_hex_ascii_byte_alpha {c : Char} (e : Nat) (h : 'a' ≤ c ∧ c ≤ 'f') :
    parse_hex_ascii_byte c e = (hexDigitValue c, e) := by
  have h1 : 97 ≤ c.toNat := by
    have := char_le_iff_toNat.mp h.1; rwa [toNat_ascii_a] at this
  have h2 : c.toNat ≤ 102 := by
    have := char_le_iff_toNat.mp h.2; rwa [toNat_ascii_f] at this
  have hno : ¬ ('0' ≤ c ∧ c ≤ '9') := by
    rintro ⟨-, h9⟩
    have := char_le_iff_toNat.mp h9
    rw [toNat_ascii_nine] at this
    omega
  rw [parse_hex_ascii_byte, hexDigitValue, if_neg hno, if_pos h, if_neg hno, if_pos h,
    and_fifteen_alpha c.toNat h1 h2]

theorem parse_hex_ascii_byte_valid {c : Char} (e : Nat) (h : isLowerHexDigit c) :
    parse_hex_ascii_byte c e = (hexDigitValue c, e) := by
  rcases h with h | h
  · exact parse_hex_ascii_byte_digit e h
  · exact parse_hex_ascii_byte_alpha e h

theorem hexDigitValue_lt_16 {c : Char} (h : isLowerHexDigit c) : hexDigitValue c < 16 := by
  rcases h with h | h
  · have h1 : 48 ≤ c.toNat := by
      have := char_le_iff_toNat.mp h.1; rwa [toNat_ascii_zero] at this
    have h2 : c.toNat ≤ 57 := by
      have := char_le_iff_toNat.mp h.2; rwa [toNat_ascii_nine] at this
    rw [hexDigitValue, if_pos h]
    omega
  · have h1 : 97 ≤ c.toNat := by
      have := char_le_iff_toNat.mp h.1; rwa [toNat_ascii_a] at this
    have h2 : c.toNat ≤ 102 := by
      have := char_le_iff_toNat.mp h.2; rwa [toNat_ascii_f] at this
    have hno : ¬ ('0' ≤ c ∧ c ≤ '9') := by
      rintro ⟨-, h9⟩
      have := char_le_iff_toNat.mp h9
      rw [toNat_ascii_nine] at this
      omega
    rw [hexDigitValue, if_neg hno, if_pos h]
    omega

theorem parse_hex_ascii_byte_invalid {c : Char} (e : Nat) (h : ¬ isLowerHexDigit c) :
    parse_hex_ascii_byte c e = (0xFF, EINVAL) := by
  rw [isLowerHexDigit, not_or] at h
  rw [parse_hex_ascii_byte, if_neg h.1, if_neg h.2]

theorem parse_hex_ascii_byte_errno_cases (c : Char) (e : Nat) :
    (parse_hex_ascii_byte c e).2 = e ∨ (parse_hex_ascii_byte c e).2 = EINVAL := by
  rw [parse_hex_ascii_byte]
  split
  · exact Or.inl rfl
  split
  · exact Or.inl rfl
  · exact Or.inr rfl

theorem parse_hex_ascii_byte_errno_ne_zero {c : Char} {e : Nat} (he : e ≠ 0) :
    (parse_hex_ascii_byte c e).2 ≠ 0 := by
  rcases parse_hex_ascii_byte_errno_cases c e with h | h <;> rw [h]
  · exact he
  · rw [EINVAL]; omega

theorem parse_hex_ascii_byte_fst (c : Char) (e eA : Nat) :
    (parse_hex_ascii_byte c e).1 = (parse_hex_ascii_byte c eA).1 := by
  rw [parse_hex_ascii_byte, parse_hex_ascii_byte]
  split
  · rfl
  split
  · rfl
  · rfl

theorem getD_drop (l : List Char) (n k : Nat) (d : Char) :
    (l.drop n).getD k d = l.getD (n + k) d := by
  simp [List.getD_eq_getElem?_getD, List.getElem?_drop]

theorem bufferAfter_getD {line : List Char} {i : Nat} (h : i < line.length) :
    (bufferAfter line).getD i (Char.ofNat 0) = line.getD i (Char.ofNat 0) := by
  rw [bufferAfter]
  simp [List.getD_eq_getElem?_getD, List.getElem?_append_left h]

theorem parse_hex_octet_valid {s : List Char} (e : Nat)
    (h0 : isLowerHexDigit (s.getD 0 (Char.ofNat 0)))
    (h1 : isLowerHexDigit (s.getD 1 (Char.ofNat 0))) :
    parse_hex_octet s e =
      (16 * hexDigitValue (s.getD 0 (Char.ofNat 0)) +
        hexDigitValue (s.getD 1 (Char.ofNat 0)), e) := by
  rw [parse_hex_octet]
  simp only [parse_hex_ascii_byte_valid e h0]
  simp only [parse_hex_ascii_byte_valid e h1]
  rw [combine_nibbles _ (hexDigitValue_lt_16 h0) _ (hexDigitValue_lt_16 h1)]

theorem parse_hex_octet_errno_ne_zero {s : List Char} {e : Nat} (he : e ≠ 0) :
    (parse_hex_octet s e).2 ≠ 0 := by
  rw [parse_hex_octet]
  exact parse_hex_ascii_byte_errno_ne_zero (parse_hex_ascii_byte_errno_ne_zero he)

theorem EINVAL_ne_zero : EINVAL ≠ 0 := by
  rw [EINVAL]; omega

theorem parse_hex_octet_errno_bad0 {s : List Char} (e : Nat)
    (h : ¬ isLowerHexDigit (s.getD 0 (Char.ofNat 0))) :
    (parse_hex_octet s e).2 ≠ 0 := by
  rw [parse_hex_octet, parse_hex_ascii_byte_invalid e h]
  exact parse_hex_ascii_byte_errno_ne_zero EINVAL_ne_zero

theorem parse_hex_octet_errno_bad1 {s : List Char} (e : Nat)
    (h : ¬ isLowerHexDigit (s.getD 1 (Char.ofNat 0))) :
    (parse_hex_octet s e).2 ≠ 0 := by
  rw [parse_hex_octet,
    parse_hex_ascii_byte_invalid (parse_hex_ascii_byte (s.getD 0 (Char.ofNat 0)) e).2 h]
  exact EINVAL_ne_zero

theorem parse_hex_octet_fst (s : List Char) (e eA : Nat) :
    (parse_hex_octet s e).1 = (parse_hex_octet s eA).1 := by
  rw [parse_hex_octet, parse_hex_octet]
  simp only
  rw [parse_hex_ascii_byte_fst (s.getD 0 (Char.ofNat 0)) e eA,
    parse_hex_ascii_byte_fst (s.getD 1 (Char.ofNat 0))
      (parse_hex_ascii_byte (s.getD 0 (Char.ofNat 0)) e).2
      (parse_hex_ascii_byte (s.getD 0 (Char.ofNat 0)) eA).2]

theorem strnlen_append_nul (l r : List Char) (m : Nat) :
    strnlen (l ++ Char.ofNat 0 :: r) m ≤ l.length := by
  induction l generalizing m with
  | nil =>
    cases m with
    | zero => simp [strnlen]
    | succ k => simp [strnlen]
  | cons c cs ih =>
    cases m with
    | zero => simp [strnlen]
    | succ k =>
      rw [List.cons_append]
      simp only [strnlen, List.length_cons]
      split
      · omega
      · have := ih k
        omega

theorem length_ge_of_strnlen_ge {line : List Char}
    (h : SHA1_HEX_LENGTH ≤ strnlen (bufferAfter line) EXPECTED_OUTPUT_LENGTH) :
    SHA1_HEX_LENGTH ≤ line.length := by
  by_contra hlt
  push_neg at hlt
  rw [SHA1_HEX_LENGTH] at hlt
  have hrep : EXPECTED_OUTPUT_LENGTH - line.length =
      (EXPECTED_OUTPUT_LENGTH - line.length - 1) + 1 := by
    rw [EXPECTED_OUTPUT_LENGTH, SHA1_HEX_LENGTH]
    omega
  have hle : strnlen (bufferAfter line) EXPECTED_OUTPUT_LENGTH ≤ line.length := by
    rw [bufferAfter, hrep, List.replicate_succ]
    exact strnlen_append_nul _ _ _
  rw [SHA1_HEX_LENGTH] at h
  omega

theorem strnlen_lt_of_short {line : List Char} (hlen : line.length < SHA1_HEX_LENGTH) :
    strnlen (bufferAfter line) EXPECTED_OUTPUT_LENGTH < SHA1_HEX_LENGTH := by
  rw [SHA1_HEX_LENGTH] at hlen ⊢
  have hrep : EXPECTED_OUTPUT_LENGTH - line.length =
      (EXPECTED_OUTPUT_LENGTH - line.length - 1) + 1 := by
    rw [EXPECTED_OUTPUT_LENGTH, SHA1_HEX_LENGTH]
    omega
  have hle : strnlen (bufferAfter line) EXPECTED_OUTPUT_LENGTH ≤ line.length := by
    rw [bufferAfter, hrep, List.replicate_succ]
    exact strnlen_append_nul _ _ _
  omega

/-- C1: for every identifier whose first 6 characters are lowercase hex digits,
decoding succeeds (errno is left untouched) and the channels (r,g,b) equal the
big-endian byte values of the hex pairs at offsets [0,1], [2,3], [4,5]. -/
theorem decode_valid_hex_prefix (c0 c1 c2 c3 c4 c5 : Char) (rest : List Char) (e : Nat)
    (h0 : isLowerHexDigit c0) (h1 : isLowerHexDigit c1) (h2 : isLowerHexDigit c2)
    (h3 : isLowerHexDigit c3) (h4 : isLowerHexDigit c4) (h5 : isLowerHexDigit c5) :
    parse_hex_octet (c0 :: c1 :: c2 :: c3 :: c4 :: c5 :: rest) e =
      (16 * hexDigitValue c0 + hexDigitValue c1, e) ∧
    parse_hex_octet ((c0 :: c1 :: c2 :: c3 :: c4 :: c5 :: rest).drop 2) e =
      (16 * hexDigitValue c2 + hexDigitValue c3, e) ∧
    parse_hex_octet ((c0 :: c1 :: c2 :: c3 :: c4 :: c5 :: rest).drop 4) e =
      (16 * hexDigitValue c4 + hexDigitValue c5, e) :=
  ⟨parse_hex_octet_valid e h0 h1,
   parse_hex_octet_valid e h2 h3,
   parse_hex_octet_valid e h4 h5⟩

theorem decode_valid_hex_prefix_witness :
    parse_hex_octet ['1', 'a', '2', 'b', '3', 'c'] 0 = (26, 0) ∧
    parse_hex_octet (['1', 'a', '2', 'b', '3', 'c'].drop 2) 0 = (43, 0) ∧
    parse_hex_octet (['1', 'a', '2', 'b', '3', 'c'].drop 4) 0 = (60, 0) := by
  have h := decode_valid_hex_prefix '1' 'a' '2' 'b' '3' 'c' [] 0
    (by decide) (by decide) (by decide) (by decide) (by decide) (by decide)
  exact ⟨h.1.trans (by decide), h.2.1.trans (by decide), h.2.2.trans (by decide)⟩

/-- C2: the classifier returns LIGHT exactly when
floor((299r + 587g + 114b) / 1000) is strictly greater than 127 and DARK
otherwise; luminance 127 is DARK and luminance 128 is LIGHT. -/
theorem classifier_threshold (r g b : Nat) (hr : r ≤ 255) (hg : g ≤ 255) (hb : b ≤ 255) :
    (light_or_dark r g b = .LIGHT ↔ 127 < luminance r g b) ∧
    (light_or_dark r g b = .DARK ↔ luminance r g b ≤ 127) ∧
    (luminance r g b = 127 → light_or_dark r g b = .DARK) ∧
    (luminance r g b = 128 → light_or_dark r g b = .LIGHT) := by
  by_cases h : 127 < luminance r g b <;> simp [light_or_dark, h] <;> omega

theorem classifier_threshold_witness :
    (light_or_dark 128 128 128 = .LIGHT ↔ 127 < luminance 128 128 128) ∧
    (light_or_dark 128 128 128 = .DARK ↔ luminance 128 128 128 ≤ 127) ∧
    (luminance 128 128 128 = 127 → light_or_dark 128 128 128 = .DARK) ∧
    (luminance 128 128 128 = 128 → light_or_dark 128 128 128 = .LIGHT) :=
  classifier_threshold 128 128 128 (by decide) (by decide) (by decide)

/-- C3: for channels in [0,255] the weighted sum is at most 255000, fits in a
32-bit int, and the truncated luminance lies in [0,255], so the range
assertion in `light_or_dark` cannot fail. -/
theorem luminance_range_safe (r g b : Nat) (hr : r ≤ 255) (hg : g ≤ 255) (hb : b ≤ 255) :
    299 * r + 587 * g + 114 * b ≤ 255000 ∧
    299 * r + 587 * g + 114 * b < 2 ^ 31 ∧
    luminance r g b ≤ 255 := by
  rw [luminance]
  exact ⟨by omega, by omega, by omega⟩

theorem luminance_range_safe_witness :
    299 * 255 + 587 * 255 + 114 * 255 ≤ 255000 ∧
    299 * 255 + 587 * 255 + 114 * 255 < 2 ^ 31 ∧
    luminance 255 255 255 ≤ 255 :=
  luminance_range_safe 255 255 255 (by decide) (by decide) (by decide)

/-- C8: luminance is monotonically non-decreasing in each channel, white
classifies LIGHT with luminance 255, and black classifies DARK with
luminance 0. -/
theorem luminance_monotone (r rA g gA b bA : Nat)
    (hr : r ≤ rA) (hg : g ≤ gA) (hb : b ≤ bA) :
    luminance r g b ≤ luminance rA g b ∧
    luminance r g b ≤ luminance r gA b ∧
    luminance r g b ≤ luminance r g bA ∧
    light_or_dark 255 255 255 = .LIGHT ∧ luminance 255 255 255 = 255 ∧
    light_or_dark 0 0 0 = .DARK ∧ luminance 0 0 0 = 0 := by
  refine ⟨?_, ?_, ?_, by decide, by decide, by decide, by decide⟩ <;>
  · rw [luminance, luminance]
    apply Nat.div_le_div_right
    omega

theorem luminance_monotone_witness :
    luminance 10 20 30 ≤ luminance 40 20 30 ∧
    luminance 10 20 30 ≤ luminance 10 50 30 ∧
    luminance 10 20 30 ≤ luminance 10 20 60 ∧
    light_or_dark 255 255 255 = .LIGHT ∧ luminance 255 255 255 = 255 ∧
    light_or_dark 0 0 0 = .DARK ∧ luminance 0 0 0 = 0 :=
  luminance_monotone 10 40 20 50 30 60 (by decide) (by decide) (by decide)

theorem sha1_def : SHA1_HEX_LENGTH = 40 := rfl

theorem decodeRGB_eq {line : List Char} (hll : SHA1_HEX_LENGTH ≤ line.length)
    (hv : ∀ i, i < 6 → isLowerHexDigit (line.getD i (Char.ofNat 0))) :
    decodeRGB line =
      (16 * hexDigitValue (line.getD 0 (Char.ofNat 0)) + hexDigitValue (line.getD 1 (Char.ofNat 0)),
       16 * hexDigitValue (line.getD 2 (Char.ofNat 0)) + hexDigitValue (line.getD 3 (Char.ofNat 0)),
       16 * hexDigitValue (line.getD 4 (Char.ofNat 0)) + hexDigitValue (line.getD 5 (Char.ofNat 0))) := by
  have h40 := sha1_def
  have hA : ∀ j, j < 6 → (bufferAfter line).getD j (Char.ofNat 0) = line.getD j (Char.ofNat 0) := by
    intro j hj
    exact bufferAfter_getD (by omega)
  have hB0 : ((bufferAfter line).drop 2).getD 0 (Char.ofNat 0) = line.getD 2 (Char.ofNat 0) := by
    rw [getD_drop]; exact hA 2 (by omega)
  have hB1 : ((bufferAfter line).drop 2).getD 1 (Char.ofNat 0) = line.getD 3 (Char.ofNat 0) := by
    rw [getD_drop]; exact hA 3 (by omega)
  have hC0 : ((bufferAfter line).drop 4).getD 0 (Char.ofNat 0) = line.getD 4 (Char.ofNat 0) := by
    rw [getD_drop]; exact hA 4 (by omega)
  have hC1 : ((bufferAfter line).drop 4).getD 1 (Char.ofNat 0) = line.getD 5 (Char.ofNat 0) := by
    rw [getD_drop]; exact hA 5 (by omega)
  rw [decodeRGB]
  rw [parse_hex_octet_valid 0 (by rw [hA 0 (by omega)]; exact hv 0 (by omega))
        (by rw [hA 1 (by omega)]; exact hv 1 (by omega)),
      parse_hex_octet_valid 0 (by rw [hB0]; exact hv 2 (by omega))
        (by rw [hB1]; exact hv 3 (by omega)),
      parse_hex_octet_valid 0 (by rw [hC0]; exact hv 4 (by omega))
        (by rw [hC1]; exact hv 5 (by omega))]
  rw [hA 0 (by omega), hA 1 (by omega), hB0, hB1, hC0, hC1]

theorem runMain_valid_line (s line : List Char) (e : Nat)
    (hf : fgetsModel s = some line)
    (hlen : SHA1_HEX_LENGTH ≤ strnlen (bufferAfter line) EXPECTED_OUTPUT_LENGTH)
    (hv : ∀ i, i < 6 → isLowerHexDigit (line.getD i (Char.ofNat 0))) :
    runMain (some s) e =
      if e ≠ 0 then ("", 1)
      else
        (CSI
          ++ toString (if light_or_dark (decodeRGB line).1 (decodeRGB line).2.1
                (decodeRGB line).2.2 = perceived_brightness_t.LIGHT then 38 else 48)
          ++ ";2;" ++ toString (decodeRGB line).1 ++ ";" ++ toString (decodeRGB line).2.1
          ++ ";" ++ toString (decodeRGB line).2.2 ++ SGR
          ++ (if (if light_or_dark (decodeRGB line).1 (decodeRGB line).2.1
                    (decodeRGB line).2.2 = perceived_brightness_t.LIGHT then 38 else 48) = 48
              then CSI ++ SET_WHITE_FOREGROUND ++ SGR else ""),
          0) := by
  have h40 := sha1_def
  have hll : SHA1_HEX_LENGTH ≤ line.length := length_ge_of_strnlen_ge hlen
  have hnl : ¬ strnlen (bufferAfter line) EXPECTED_OUTPUT_LENGTH < SHA1_HEX_LENGTH :=
    Nat.not_lt.mpr hlen
  have hA : ∀ j, j < 6 → (bufferAfter line).getD j (Char.ofNat 0) = line.getD j (Char.ofNat 0) := by
    intro j hj
    exact bufferAfter_getD (by omega)
  have hB0 : ((bufferAfter line).drop 2).getD 0 (Char.ofNat 0) = line.getD 2 (Char.ofNat 0) := by
    rw [getD_drop]; exact hA 2 (by omega)
  have hB1 : ((bufferAfter line).drop 2).getD 1 (Char.ofNat 0) = line.getD 3 (Char.ofNat 0) := by
    rw [getD_drop]; exact hA 3 (by omega)
  have hC0 : ((bufferAfter line).drop 4).getD 0 (Char.ofNat 0) = line.getD 4 (Char.ofNat 0) := by
    rw [getD_drop]; exact hA 4 (by omega)
  have hC1 : ((bufferAfter line).drop 4).getD 1 (Char.ofNat 0) = line.getD 5 (Char.ofNat 0) := by
    rw [getD_drop]; exact hA 5 (by omega)
  have hpr : parse_hex_octet (bufferAfter line) e =
      (16 * hexDigitValue (line.getD 0 (Char.ofNat 0))
        + hexDigitValue (line.getD 1 (Char.ofNat 0)), e) := by
    rw [parse_hex_octet_valid e (by rw [hA 0 (by omega)]; exact hv 0 (by omega))
        (by rw [hA 1 (by omega)]; exact hv 1 (by omega)),
      hA 0 (by omega), hA 1 (by omega)]
  have hpg : parse_hex_octet ((bufferAfter line).drop 2) e =
      (16 * hexDigitValue (line.getD 2 (Char.ofNat 0))
        + hexDigitValue (line.getD 3 (Char.ofNat 0)), e) := by
    rw [parse_hex_octet_valid e (by rw [hB0]; exact hv 2 (by omega))
        (by rw [hB1]; exact hv 3 (by omega)), hB0, hB1]
  have hpb : parse_hex_octet ((bufferAfter line).drop 4) e =
      (16 * hexDigitValue (line.getD 4 (Char.ofNat 0))
        + hexDigitValue (line.getD 5 (Char.ofNat 0)), e) := by
    rw [parse_hex_octet_valid e (by rw [hC0]; exact hv 4 (by omega))
        (by rw [hC1]; exact hv 5 (by omega)), hC0, hC1]
  have hd := decodeRGB_eq hll hv
  by_cases he : e = 0
  · subst he
    simp [runMain, hf, hnl, hpr, hpg, hpb, hd]
  · simp [runMain, hf, hnl, hpr, hpg, hpb, he]

/-- C10: the code tests the process-wide `errno` once, after all three octet
parses, and never resets it first; so even with a fully valid 40-character
identifier, a nonzero `errno` at the start of parsing makes the program emit
nothing and exit nonzero. -/
theorem stale_errno_aborts (s line : List Char) (e : Nat)
    (hf : fgetsModel s = some line)
    (hlen : SHA1_HEX_LENGTH ≤ strnlen (bufferAfter line) EXPECTED_OUTPUT_LENGTH)
    (hv : ∀ i, i < 6 → isLowerHexDigit (line.getD i (Char.ofNat 0)))
    (he : e ≠ 0) :
    runMain (some s) e = ("", 1) := by
  rw [runMain_valid_line s line e hf hlen hv, if_pos he]

theorem stale_errno_aborts_witness :
    runMain (some (List.replicate 40 '0' ++ ['\n'])) 22 = ("", 1) :=
  stale_errno_aborts (List.replicate 40 '0' ++ ['\n']) (List.replicate 40 '0' ++ ['\n']) 22
    (by decide) (by decide) (by decide) (by decide)

/-- C5 (amended): the strnlen guard counts the stored newline, so a line of
39 characters plus a newline passes it (see the counterexample below). What
holds is: whenever the line `fgets` stores — newline included — is shorter
than 40 characters (including an entirely empty subprocess output and a
failed popen), the program writes nothing and exits nonzero. -/
theorem short_input_aborts (stream : Option (List Char)) (e : Nat)
    (h : ∀ s line, stream = some s → fgetsModel s = some line →
      line.length < SHA1_HEX_LENGTH) :
    runMain stream e = ("", 1) := by
  cases stream with
  | none => rfl
  | some s =>
    cases hfg : fgetsModel s with
    | none => simp [runMain, hfg]
    | some line =>
      have hlen := h s line rfl hfg
      have hsn := strnlen_lt_of_short hlen
      simp [runMain, hfg, hsn]

theorem short_input_aborts_witness : runMain (some []) 0 = ("", 1) :=
  short_input_aborts (some []) 0 (by
    intro s line hs hfg
    cases hs
    rw [show fgetsModel ([] : List Char) = none from rfl] at hfg
    cases hfg)

/-- C5 counterexample to the original claim: 39 lowercase-hex characters
followed by a newline is an input with fewer than 40 characters before the
newline, yet the program prints a full escape sequence and exits 0, because
`strnlen` counts the stored newline and returns exactly 40. -/
theorem short_input_aborts_counterexample :
    runMain (some (List.replicate 39 'a' ++ ['\n'])) 0 = ("\x1b[38;2;170;170;170m", 0) ∧
    runMain (some (List.replicate 39 'a' ++ ['\n'])) 0 ≠ ("", 1) :=
  ⟨by decide, by decide⟩

/-- C4: an input line of at least 40 characters with any character outside
[0-9a-f] among the first 6 (uppercase hex included) makes the program write
nothing and exit nonzero. -/
theorem invalid_digit_aborts (s line : List Char) (e i : Nat)
    (hf : fgetsModel s = some line)
    (hlen : SHA1_HEX_LENGTH ≤ line.length)
    (hi : i < 6)
    (hbad : ¬ isLowerHexDigit (line.getD i (Char.ofNat 0))) :
    runMain (some s) e = ("", 1) := by
  have h40 := sha1_def
  by_cases hsn : strnlen (bufferAfter line) EXPECTED_OUTPUT_LENGTH < SHA1_HEX_LENGTH
  · simp [runMain, hf, hsn]
  · have hA : ∀ j, j < 6 →
        (bufferAfter line).getD j (Char.ofNat 0) = line.getD j (Char.ofNat 0) := by
      intro j hj
      exact bufferAfter_getD (by omega)
    have hB0 : ((bufferAfter line).drop 2).getD 0 (Char.ofNat 0) = line.getD 2 (Char.ofNat 0) := by
      rw [getD_drop]; exact hA 2 (by omega)
    have hB1 : ((bufferAfter line).drop 2).getD 1 (Char.ofNat 0) = line.getD 3 (Char.ofNat 0) := by
      rw [getD_drop]; exact hA 3 (by omega)
    have hC0 : ((bufferAfter line).drop 4).getD 0 (Char.ofNat 0) = line.getD 4 (Char.ofNat 0) := by
      rw [getD_drop]; exact hA 4 (by omega)
    have hC1 : ((bufferAfter line).drop 4).getD 1 (Char.ofNat 0) = line.getD 5 (Char.ofNat 0) := by
      rw [getD_drop]; exact hA 5 (by omega)
    have hpb : (parse_hex_octet ((bufferAfter line).drop 4)
        (parse_hex_octet ((bufferAfter line).drop 2)
          (parse_hex_octet (bufferAfter line) e).2).2).2 ≠ 0 := by
      interval_cases i
      · exact parse_hex_octet_errno_ne_zero (parse_hex_octet_errno_ne_zero
          (parse_hex_octet_errno_bad0 e (by rw [hA 0 (by omega)]; exact hbad)))
      · exact parse_hex_octet_errno_ne_zero (parse_hex_octet_errno_ne_zero
          (parse_hex_octet_errno_bad1 e (by rw [hA 1 (by omega)]; exact hbad)))
      · exact parse_hex_octet_errno_ne_zero
          (parse_hex_octet_errno_bad0 _ (by rw [hB0]; exact hbad))
      · exact parse_hex_octet_errno_ne_zero
          (parse_hex_octet_errno_bad1 _ (by rw [hB1]; exact hbad))
      · exact parse_hex_octet_errno_bad0 _ (by rw [hC0]; exact hbad)
      · exact parse_hex_octet_errno_bad1 _ (by rw [hC1]; exact hbad)
    simp [runMain, hf, hsn, hpb]

theorem invalid_digit_aborts_witness :
    runMain (some ('A' :: (List.replicate 39 'a' ++ ['\n']))) 0 = ("", 1) :=
  invalid_digit_aborts ('A' :: (List.replicate 39 'a' ++ ['\n']))
    ('A' :: (List.replicate 39 'a' ++ ['\n'])) 0 0
    (by decide) (by decide) (by decide) (by decide)

/-- C6: a colour classified DARK makes the program emit exactly the 24-bit
background sequence ESC[48;2;r;g;bm immediately followed by the
white-foreground sequence ESC[37m, and nothing else. -/
theorem dark_output_format (s line : List Char) (e : Nat)
    (hf : fgetsModel s = some line)
    (hlen : SHA1_HEX_LENGTH ≤ strnlen (bufferAfter line) EXPECTED_OUTPUT_LENGTH)
    (hv : ∀ i, i < 6 → isLowerHexDigit (line.getD i (Char.ofNat 0)))
    (he : e = 0)
    (hdark : light_or_dark (decodeRGB line).1 (decodeRGB line).2.1 (decodeRGB line).2.2 =
      perceived_brightness_t.DARK) :
    runMain (some s) e =
      ("\x1b[48;2;" ++ toString (decodeRGB line).1 ++ ";" ++ toString (decodeRGB line).2.1
        ++ ";" ++ toString (decodeRGB line).2.2 ++ "m" ++ "\x1b[37m", 0) := by
  subst he
  rw [runMain_valid_line s line 0 hf hlen hv, hdark]
  simp
  rfl

theorem dark_output_format_witness :
    runMain (some (List.replicate 40 '0' ++ ['\n'])) 0 = ("\x1b[48;2;0;0;0m\x1b[37m", 0) := by
  have h := dark_output_format (List.replicate 40 '0' ++ ['\n'])
    (List.replicate 40 '0' ++ ['\n']) 0
    (by decide) (by decide) (by decide) rfl (by decide)
  exact h.trans (by decide)

/-- C7: a colour classified LIGHT makes the program emit exactly one escape
sequence, the 24-bit foreground form ESC[38;2;r;g;bm with the channels in
decimal, with no trailing reset, newline, or any other bytes. -/
theorem light_output_format (s line : List Char) (e : Nat)
    (hf : fgetsModel s = some line)
    (hlen : SHA1_HEX_LENGTH ≤ strnlen (bufferAfter line) EXPECTED_OUTPUT_LENGTH)
    (hv : ∀ i, i < 6 → isLowerHexDigit (line.getD i (Char.ofNat 0)))
    (he : e = 0)
    (hlight : light_or_dark (decodeRGB line).1 (decodeRGB line).2.1 (decodeRGB line).2.2 =
      perceived_brightness_t.LIGHT) :
    runMain (some s) e =
      ("\x1b[38;2;" ++ toString (decodeRGB line).1 ++ ";" ++ toString (decodeRGB line).2.1
        ++ ";" ++ toString (decodeRGB line).2.2 ++ "m", 0) := by
  subst he
  rw [runMain_valid_line s line 0 hf hlen hv, hlight]
  simp
  rfl

theorem light_output_format_witness :
    runMain (some (List.replicate 40 'f' ++ ['\n'])) 0 = ("\x1b[38;2;255;255;255m", 0) := by
  have h := light_output_format (List.replicate 40 'f' ++ ['\n'])
    (List.replicate 40 'f' ++ ['\n']) 0
    (by decide) (by decide) (by decide) rfl (by decide)
  exact h.trans (by decide)

/-- C9: the emitted bytes are a function of the identifier's first 6
characters alone: two runs whose lines have at least 40 characters and agree
on their (valid lowercase hex) first 6 characters produce byte-identical
output, whatever the characters from position 7 onwards are. -/
theorem output_depends_only_on_prefix (s1 s2 line1 line2 : List Char) (e : Nat)
    (hf1 : fgetsModel s1 = some line1) (hf2 : fgetsModel s2 = some line2)
    (hl1 : SHA1_HEX_LENGTH ≤ strnlen (bufferAfter line1) EXPECTED_OUTPUT_LENGTH)
    (hl2 : SHA1_HEX_LENGTH ≤ strnlen (bufferAfter line2) EXPECTED_OUTPUT_LENGTH)
    (hv1 : ∀ i, i < 6 → isLowerHexDigit (line1.getD i (Char.ofNat 0)))
    (hagree : ∀ i, i < 6 → line1.getD i (Char.ofNat 0) = line2.getD i (Char.ofNat 0)) :
    runMain (some s1) e = runMain (some s2) e := by
  have hv2 : ∀ i, i < 6 → isLowerHexDigit (line2.getD i (Char.ofNat 0)) := by
    intro i hi
    rw [← hagree i hi]
    exact hv1 i hi
  rw [runMain_valid_line s1 line1 e hf1 hl1 hv1,
    runMain_valid_line s2 line2 e hf2 hl2 hv2,
    decodeRGB_eq (length_ge_of_strnlen_ge hl1) hv1,
    decodeRGB_eq (length_ge_of_strnlen_ge hl2) hv2,
    hagree 0 (by omega), hagree 1 (by omega), hagree 2 (by omega),
    hagree 3 (by omega), hagree 4 (by omega), hagree 5 (by omega)]

theorem output_depends_only_on_prefix_witness :
    runMain (some (String.toList "1a2b3c0000000000000000000000000000000000\n")) 0 =
      runMain (some (String.toList "1a2b3cffffffffffffffffffffffffffffffffff\n")) 0 :=
  output_depends_only_on_prefix
    (String.toList "1a2b3c0000000000000000000000000000000000\n")
    (String.toList "1a2b3cffffffffffffffffffffffffffffffffff\n")
    (String.toList "1a2b3c0000000000000000000000000000000000\n")
    (String.toList "1a2b3cffffffffffffffffffffffffffffffffff\n") 0
    (by decide) (by decide) (by decide) (by decide) (by decide) (by decide)
